import Mathlib

/-!
Verification of the CFR (counterfactual regret minimization) engine of this
repository.  The Python sources keep floating-point accumulators in ordered
dictionaries; we embed them as association lists over `ℚ` (all the arithmetic
the claims exercise is exact), and we embed Python runtime failures
(`KeyError`, `TypeError`, `AttributeError`, `ZeroDivisionError`) with
`Except String` results, raised at exactly the program points where the
interpreter would raise them.
-/

deriving instance DecidableEq for Except

namespace CFRSpec

/-- Python division: raises `ZeroDivisionError` on a zero divisor, otherwise
returns the exact quotient. -/
def pydiv (x y : ℚ) : Except String ℚ :=
  if y = 0 then .error "ZeroDivisionError" else .ok (x / y)

/-- Association-list lookup for Python dicts, written with `if` so that it
evaluates by simp. -/
def alookup {α : Type} : List (String × α) → String → Option α
  | [], _ => none
  | p :: rest, k => if p.1 = k then some p.2 else alookup rest k

/-- Read `d[k]` from a Python dict modelled as an association list:
`KeyError` when the key is absent. -/
def dictGetE (d : List (String × ℚ)) (k : String) : Except String ℚ :=
  match alookup d k with
  | some v => .ok v
  | none => .error "KeyError"

/-- Read `d.get(k, dflt)`: the value at `k`, or the default when absent. -/
def dictGet (d : List (String × ℚ)) (k : String) (dflt : ℚ) : ℚ :=
  (alookup d k).getD dflt

/-- Assign `d[k] = v`: overwrite in place when the key exists (Python dicts
keep the original position), append otherwise. -/
def dictSet (d : List (String × ℚ)) (k : String) (v : ℚ) : List (String × ℚ) :=
  if (alookup d k).isSome then d.map (fun p => if p.1 = k then (k, v) else p)
  else d ++ [(k, v)]

/-- The dict comprehension `{a: r / s for a, r in d.items()}`: one Python
division per entry, evaluated left to right, so an empty dict performs no
division at all. -/
def divEach : List (String × ℚ) → ℚ → Except String (List (String × ℚ))
  | [], _ => .ok []
  | p :: rest, s =>
    match pydiv p.2 s with
    | .error e => .error e
    | .ok q =>
      match divEach rest s with
      | .error e => .error e
      | .ok l => .ok ((p.1, q) :: l)

/-- The dict comprehension `{a: 1 / count for a, r in d.items()}`: again one
division per entry, none when the dict is empty. -/
def uniformEach : List (String × ℚ) → ℚ → Except String (List (String × ℚ))
  | [], _ => .ok []
  | p :: rest, c =>
    match pydiv 1 c with
    | .error e => .error e
    | .ok q =>
      match uniformEach rest c with
      | .error e => .error e
      | .ok l => .ok ((p.1, q) :: l)

/-- `InfoSet.calculate_strategy` from `src/__init__.py` (identical in
`src/cfr.py`): clip the regrets at zero, and either normalise by the positive
sum or fall back to the uniform distribution `1 / len(self.regret)`.
Returns the new `self.strategy`. -/
def calculate_strategy (regret0 : List (String × ℚ)) :
    Except String (List (String × ℚ)) :=
  let regret := regret0.map (fun p => (p.1, max p.2 0))
  let regret_sum := (regret.map Prod.snd).sum
  if regret_sum > 0 then
    divEach regret regret_sum
  else
    uniformEach regret ((regret0.length : ℚ))

/-- `InfoSet.get_average_strategy` from `src/__init__.py` (identical in
`src/cfr.py`): re-key `self.cumulative_strategy` by `self.actions()` with
default `0`, normalise by the total when positive, else uniform. -/
def get_average_strategy (actions : List String)
    (cumulative_strategy : List (String × ℚ)) :
    Except String (List (String × ℚ)) :=
  let cum_strategy := actions.map (fun a => (a, dictGet cumulative_strategy a 0))
  let strategy_sum := (cum_strategy.map Prod.snd).sum
  if strategy_sum > 0 then
    divEach cum_strategy strategy_sum
  else
    uniformEach cum_strategy ((cum_strategy.length : ℚ))

example : calculate_strategy [("L", 2), ("R", -1)] = .ok [("L", 1), ("R", 0)] := by
  norm_num [calculate_strategy, divEach, pydiv]

example : calculate_strategy [("L", -2), ("R", -1)] =
    .ok [("L", 1/2), ("R", 1/2)] := by
  norm_num [calculate_strategy, divEach, uniformEach, pydiv]

example : calculate_strategy [] = .ok [] := by
  norm_num [calculate_strategy, divEach, uniformEach, pydiv]

example : get_average_strategy ["L", "R"] [("L", 1), ("R", 3)] =
    .ok [("L", 1/4), ("R", 3/4)] := by
  simp [get_average_strategy, divEach, uniformEach, pydiv, dictGet, alookup]
  norm_num

example : get_average_strategy [] [] = .ok [] := by
  norm_num [get_average_strategy, divEach, uniformEach, pydiv]

/-- The mutable fields of a Python `InfoSet` object (`src/__init__.py`,
`src/cfr.py`): its key and the three per-action dictionaries. -/
structure InfoSetM where
  key : String
  strategy : List (String × ℚ)
  regret : List (String × ℚ)
  cumulative_strategy : List (String × ℚ)
deriving DecidableEq, Repr

/-- The `CFR.info_sets` dictionary: info-set key to `InfoSet` object. -/
abbrev Store := List (String × InfoSetM)

/-- Read `store[key]`; `KeyError` when absent. -/
def storeGetE (store : Store) (k : String) : Except String InfoSetM :=
  match alookup store k with
  | some I => .ok I
  | none => .error "KeyError"

/-- Assign `store[key] = I` with Python dict ordering semantics. -/
def storeSet (store : Store) (k : String) (I : InfoSetM) : Store :=
  if (alookup store k).isSome then store.map (fun p => if p.1 = k then (k, I) else p)
  else store ++ [(k, I)]

/-- `InfoSet.__init__`: zero regret and cumulative strategy over the action
set, then `self.calculate_strategy()` (uniform, since no regret is
positive). -/
def InfoSet_init (key : String) (actions : List String) :
    Except String InfoSetM :=
  let regret := actions.map (fun a => (a, (0 : ℚ)))
  let cumulative_strategy := actions.map (fun a => (a, (0 : ℚ)))
  match calculate_strategy regret with
  | .error e => .error e
  | .ok strategy => .ok ⟨key, strategy, regret, cumulative_strategy⟩

/-- The dictionary shape produced by `InfoSet.to_dict`; `none` in a field
models a saved dictionary from which that Python key is absent. -/
structure SavedDict where
  key : String
  regret : Option (List (String × ℚ))
  average_strategy : Option (List (String × ℚ))
deriving DecidableEq

/-- `InfoSet.to_dict`: exports `key`, `regret`, and the cumulative strategy
under the name `average_strategy`. -/
def to_dict (I : InfoSetM) : SavedDict :=
  { key := I.key, regret := some I.regret,
    average_strategy := some I.cumulative_strategy }

/-- `InfoSet.load_dict`: assigns `self.regret = data[regret]`, then
`self.cumulative_strategy = data[average_strategy]`, then recomputes the
strategy.  A missing Python key raises `KeyError` at the corresponding read,
leaving the fields assigned so far in place (Python mutates the object
statement by statement); the pair returned is the outcome together with the
final object state. -/
def load_dict (I : InfoSetM) (d : SavedDict) :
    Except String Unit × InfoSetM :=
  match d.regret with
  | none => (.error "KeyError", I)
  | some r =>
    let I1 := { I with regret := r }
    match d.average_strategy with
    | none => (.error "KeyError", I1)
    | some cs =>
      let I2 := { I1 with cumulative_strategy := cs }
      match calculate_strategy I2.regret with
      | .error e => (.error e, I2)
      | .ok s => (.ok (), { I2 with strategy := s })

/-- `CFR._get_info_set` (`src/__init__.py` lines 252-259): look the key up;
when absent, build a fresh info set through the History-supplied constructor
and insert it; return the stored object together with the updated store. -/
def get_info_set_key (store : Store) (key : String) (actions : List String) :
    Except String (InfoSetM × Store) :=
  match alookup store key with
  | some I => .ok (I, store)
  | none =>
    match InfoSet_init key actions with
    | .error e => .error e
    | .ok I => .ok (I, store ++ [(key, I)])

/-- The game-specific capabilities of the abstract `History` class
(`src/__init__.py` lines 13-84), as one interface over a history type `H`:
terminality, terminal utility, acting player, chance test, chance sampling,
history extension, info-set key, and the action set of an info set (the
`actions()` method of the game-specific `InfoSet` built by
`new_info_set`). -/
structure GameIF (H : Type) where
  is_terminal : H → Bool
  terminal_utility : H → Int → ℚ
  player : H → Int
  is_chance : H → Bool
  sample_chance : H → String
  add_action : H → String → H
  info_set_key : H → String
  actions_of : String → List String

/-- Outcome of a stateful Python call: a value or an exception, in both cases
together with the final state of `CFR.info_sets` (an exception leaves the
mutations made so far in place). -/
inductive PyRes (α : Type) where
  | ok : α → Store → PyRes α
  | err : String → Store → PyRes α
deriving DecidableEq

/-- Value of a `PyRes` when no exception was raised. -/
def pyVal {α : Type} : PyRes α → Option α
  | .ok v _ => some v
  | .err _ _ => none

/-- Exception message of a `PyRes`, if one was raised. -/
def pyExn {α : Type} : PyRes α → Option String
  | .ok _ _ => none
  | .err e _ => some e

/-- Final `CFR.info_sets` state of a `PyRes`. -/
def pyStore {α : Type} : PyRes α → Store
  | .ok _ s => s
  | .err _ s => s

/-- The update block of the source `walk_tree` (`src/__init__.py` lines
285-290), entered when `h.player() == i`:

```
for a in I.actions():
    I.regret[a] += pi_neg_i*(v_a[a] - v)
    I.strategy[a] += pi_i*I.cumulative_strategy(a)
I.calculate_strategy()
```

With a non-empty action list, the first iteration updates `I.regret[a]` and
then evaluates `I.cumulative_strategy(a)` - a call on a dict - which raises
`TypeError`, so no later action is processed and `calculate_strategy` is
never reached.  With an empty action list the loop body never runs and the
strategy is recomputed. -/
def walk_update_loop (store : Store) (key : String) (acts : List String)
    (v_a : List (String × ℚ)) (v pi_neg_i : ℚ) : PyRes ℚ :=
  match acts with
  | [] =>
    match storeGetE store key with
    | .error e => .err e store
    | .ok I =>
      match calculate_strategy I.regret with
      | .error e => .err e store
      | .ok st => .ok v (storeSet store key { I with strategy := st })
  | a :: _ =>
    match storeGetE store key with
    | .error e => .err e store
    | .ok I =>
      match dictGetE I.regret a with
      | .error e => .err e store
      | .ok r =>
        match dictGetE v_a a with
        | .error e => .err e store
        | .ok va =>
          let store1 := storeSet store key
            { I with regret := dictSet I.regret a (r + pi_neg_i * (va - v)) }
          .err "TypeError" store1

/-- `CFR.walk_tree` as `src/__init__.py` lines 263-292 write it (the
`src/cfr.py` copy has no body at all).  Faithful points of the embedding:

* the chance branch is `self.walk_tree(h.sample_chance, i, pi_i, pi_neg_i)`,
  which passes the bound method object itself instead of a history, so the
  nested call raises `AttributeError` at its `h.is_terminal()`; the history
  is never extended by a sampled chance action;
* the action loop scales the reach probabilities by
  `I.cumulative_strategy[a]` - not `I.strategy[a]` - and picks which of
  `pi_i`, `pi_neg_i` to scale by the literal player index 1 or 2, assigning
  nothing to `v_a[a]` for any other index;
* the node value accumulates `v_a[a]*I.cumulative_strategy[a]`, the dict
  being re-read from the live store object at each use;
* the update block is `walk_update_loop` above.

`fuel` bounds the recursion depth exactly as the Python recursion limit
does. -/
def walk_tree {H : Type} (g : GameIF H) (fuel : Nat) (store : Store) (h : H)
    (i : Int) (pi_i pi_neg_i : ℚ) : PyRes ℚ :=
  match fuel with
  | 0 => .err "RecursionError" store
  | fuel + 1 =>
    if g.is_terminal h then .ok (g.terminal_utility h i) store
    else if g.is_chance h then
      .err "AttributeError" store
    else
      let key := g.info_set_key h
      match get_info_set_key store key (g.actions_of key) with
      | .error e => .err e store
      | .ok (_, store1) =>
        let acts := g.actions_of key
        let loopRes := acts.foldl (fun acc a =>
          match acc with
          | .err e s => PyRes.err e s
          | .ok (v, v_a) s =>
            match storeGetE s key with
            | .error e => PyRes.err e s
            | .ok I =>
              match (if g.player h = 1 then
                      match dictGetE I.cumulative_strategy a with
                      | .error e => PyRes.err e s
                      | .ok c =>
                        match walk_tree g fuel s (g.add_action h a) i
                            (pi_i * c) pi_neg_i with
                        | .err e s2 => PyRes.err e s2
                        | .ok r s2 => PyRes.ok (dictSet v_a a r) s2
                    else if g.player h = 2 then
                      match dictGetE I.cumulative_strategy a with
                      | .error e => PyRes.err e s
                      | .ok c =>
                        match walk_tree g fuel s (g.add_action h a) i
                            pi_i (pi_neg_i * c) with
                        | .err e s2 => PyRes.err e s2
                        | .ok r s2 => PyRes.ok (dictSet v_a a r) s2
                    else PyRes.ok v_a s) with
              | .err e s2 => PyRes.err e s2
              | .ok v_a2 s2 =>
                match storeGetE s2 key with
                | .error e => PyRes.err e s2
                | .ok I2 =>
                  match dictGetE v_a2 a with
                  | .error e => PyRes.err e s2
                  | .ok va =>
                    match dictGetE I2.cumulative_strategy a with
                    | .error e => PyRes.err e s2
                    | .ok c2 => PyRes.ok (v + va * c2, v_a2) s2)
          (PyRes.ok ((0 : ℚ), ([] : List (String × ℚ))) store1)
        match loopRes with
        | .err e s => .err e s
        | .ok (v, v_a) s =>
          if g.player h = i then walk_update_loop s key acts v_a v pi_neg_i
          else .ok v s

/-- The tree walk exactly as section 4.3 of the specification describes it,
over the same game interface and store, for comparison with the source
`walk_tree`: terminal histories return their utility; a chance step samples
one chance action and recurses into the extended history with unchanged
reach probabilities; at a decision node every action recurses with the
acting player reach scaled by the current strategy `I.strategy[a]`, the node
value is the strategy-weighted sum of the action values; and when the acting
player is the updating player, `I.regret[a] += pi_neg_i*(v_a[a]-v)` and
`I.cumulative_strategy[a] += pi_i*I.strategy[a]` for every action, after
which the strategy is recomputed by regret matching. -/
def walk_tree_spec {H : Type} (g : GameIF H) (fuel : Nat) (store : Store)
    (h : H) (i : Int) (pi_i pi_neg_i : ℚ) : PyRes ℚ :=
  match fuel with
  | 0 => .err "RecursionError" store
  | fuel + 1 =>
    if g.is_terminal h then .ok (g.terminal_utility h i) store
    else if g.is_chance h then
      walk_tree_spec g fuel store (g.add_action h (g.sample_chance h)) i
        pi_i pi_neg_i
    else
      let key := g.info_set_key h
      match get_info_set_key store key (g.actions_of key) with
      | .error e => .err e store
      | .ok (I0, store1) =>
        let acts := g.actions_of key
        let loopRes := acts.foldl (fun acc a =>
          match acc with
          | .err e s => PyRes.err e s
          | .ok (v, v_a) s =>
            let sa := dictGet I0.strategy a 0
            let probs := if g.player h = i then (pi_i * sa, pi_neg_i)
                         else (pi_i, pi_neg_i * sa)
            match walk_tree_spec g fuel s (g.add_action h a) i
                probs.1 probs.2 with
            | .err e s2 => PyRes.err e s2
            | .ok r s2 => PyRes.ok (v + sa * r, dictSet v_a a r) s2)
          (PyRes.ok ((0 : ℚ), ([] : List (String × ℚ))) store1)
        match loopRes with
        | .err e s => .err e s
        | .ok (v, v_a) s =>
          if g.player h = i then
            match storeGetE s key with
            | .error e => .err e s
            | .ok I =>
              let regret2 := acts.foldl (fun rg a =>
                dictSet rg a (dictGet rg a 0 + pi_neg_i * (dictGet v_a a 0 - v)))
                I.regret
              let cum2 := acts.foldl (fun c a =>
                dictSet c a (dictGet c a 0 + pi_i * dictGet I0.strategy a 0))
                I.cumulative_strategy
              match calculate_strategy regret2 with
              | .error e => .err e s
              | .ok st => .ok v (storeSet s key
                  { I with regret := regret2, cumulative_strategy := cum2,
                           strategy := st })
          else .ok v s

/-- A one-decision game: the empty history is a decision node of player 1
with actions `L` and `R`; each action ends the game, `L` with utility 2 and
`R` with utility 0 for both players.  The only info-set key is `P1`. -/
def gameA : GameIF (List String) where
  is_terminal h := !h.isEmpty
  terminal_utility h _ := if h = ["L"] then 2 else 0
  player _ := 1
  is_chance _ := false
  sample_chance _ := ""
  add_action h a := h ++ [a]
  info_set_key _ := "P1"
  actions_of _ := ["L", "R"]

/-- A one-chance-event game: the empty history is a chance node whose only
sampled action `c` ends the game with utility 7. -/
def gameB : GameIF (List String) where
  is_terminal h := !h.isEmpty
  terminal_utility _ _ := 7
  player _ := 1
  is_chance h := h.isEmpty
  sample_chance _ := "c"
  add_action h a := h ++ [a]
  info_set_key _ := "X"
  actions_of _ := ["c"]

example : pyVal (walk_tree gameA 10 [] [] 2 1 1) = some 0 := by
  simp [walk_tree, gameA, get_info_set_key, InfoSet_init, calculate_strategy,
    uniformEach, divEach, pydiv, alookup, storeGetE, dictGetE, dictGet,
    dictSet, storeSet, pyVal, walk_update_loop]

example : pyVal (walk_tree_spec gameA 10 [] [] 2 1 1) = some 1 := by
  simp [walk_tree_spec, gameA, get_info_set_key, InfoSet_init, calculate_strategy,
    uniformEach, divEach, pydiv, alookup, storeGetE, dictGetE, dictGet,
    dictSet, storeSet, pyVal]

example : pyExn (walk_tree gameB 10 [] [] 1 1 1) = some "AttributeError" := by
  simp [walk_tree, gameB, pyExn]

example : pyVal (walk_tree_spec gameB 10 [] [] 1 1 1) = some 7 := by
  simp [walk_tree_spec, gameB, pyVal]

example : walk_tree gameA 10 [] [] 1 1 1 =
    .err "TypeError" [("P1", ⟨"P1", [("L", 1/2), ("R", 1/2)],
      [("L", 2), ("R", 0)], [("L", 0), ("R", 0)]⟩)] := by
  simp [walk_tree, gameA, get_info_set_key, InfoSet_init, calculate_strategy,
    uniformEach, divEach, pydiv, alookup, storeGetE, dictGetE, dictGet,
    dictSet, storeSet, walk_update_loop]

/-- The regret-matching rule exactly as section 4.2 of the specification
words it: `positive(a) = max(regret[a], 0)`, `S` the sum of the positives,
`positive(a) / S` when `S > 0` and `1 / |actions|` otherwise.  Reference
distribution for comparison with `calculate_strategy`. -/
def rm_strategy_spec (rs : List (String × ℚ)) : List (String × ℚ) :=
  let S := (rs.map (fun p => max p.2 0)).sum
  if 0 < S then rs.map (fun p => (p.1, max p.2 0 / S))
  else rs.map (fun p => (p.1, (1 : ℚ) / rs.length))

/-- The average strategy exactly as section 4.2 of the specification words
it: `cumulativeStrategy[a] / sum(cumulativeStrategy)` when the sum is
positive, else uniform.  Reference distribution for comparison with
`get_average_strategy`. -/
def avg_strategy_spec (actions : List String) (cs : List (String × ℚ)) :
    List (String × ℚ) :=
  let S := (actions.map (fun a => dictGet cs a 0)).sum
  if 0 < S then actions.map (fun a => (a, dictGet cs a 0 / S))
  else actions.map (fun a => (a, (1 : ℚ) / actions.length))

lemma divEach_ok (d : List (String × ℚ)) (s : ℚ) (hs : s ≠ 0) :
    divEach d s = .ok (d.map (fun p => (p.1, p.2 / s))) := by
  induction d with
  | nil => simp [divEach]
  | cons p rest ih => simp [divEach, pydiv, hs, ih]

lemma uniformEach_ok (d : List (String × ℚ)) (c : ℚ) (hc : c ≠ 0) :
    uniformEach d c = .ok (d.map (fun p => (p.1, 1 / c))) := by
  induction d with
  | nil => simp [uniformEach]
  | cons p rest ih => simp [uniformEach, pydiv, hc, ih]

lemma list_sum_div (l : List ℚ) (s : ℚ) :
    (l.map (fun x => x / s)).sum = l.sum / s := by
  induction l with
  | nil => simp
  | cons x xs ih => simp [ih, div_add_div_same]

lemma list_sum_const {α : Type} (l : List α) (c : ℚ) :
    (l.map (fun _ => c)).sum = l.length * c := by
  induction l with
  | nil => simp
  | cons x xs ih =>
    simp [ih]
    ring

lemma dictGet_nonneg (cs : List (String × ℚ)) (a : String)
    (h : ∀ p ∈ cs, 0 ≤ p.2) : 0 ≤ dictGet cs a 0 := by
  induction cs with
  | nil => simp [dictGet, alookup]
  | cons p rest ih =>
    by_cases hpa : p.1 = a
    · simpa [dictGet, alookup, hpa] using h p (by simp)
    · simpa [dictGet, alookup, hpa] using
        ih (fun q hq => h q (List.mem_cons_of_mem _ hq))

lemma alookup_eq_none_iff {α : Type} (l : List (String × α)) (k : String) :
    alookup l k = none ↔ k ∉ l.map Prod.fst := by
  induction l with
  | nil => simp [alookup]
  | cons p rest ih =>
    by_cases hpk : p.1 = k
    · simp [alookup, hpk]
    · simp [alookup, hpk, ih, Ne.symm hpk]

lemma alookup_append_single {α : Type} (l : List (String × α)) (k : String)
    (v : α) (h : alookup l k = none) : alookup (l ++ [(k, v)]) k = some v := by
  induction l with
  | nil => simp [alookup]
  | cons p rest ih =>
    by_cases hpk : p.1 = k
    · simp [alookup, hpk] at h
    · simp [alookup, hpk] at h ⊢
      exact ih h

lemma calculate_strategy_total (rs : List (String × ℚ)) :
    ∃ out, calculate_strategy rs = .ok out := by
  simp only [calculate_strategy]
  split
  · case isTrue hpos => exact ⟨_, divEach_ok _ _ (ne_of_gt hpos)⟩
  · case isFalse hpos =>
    cases rs with
    | nil => exact ⟨[], rfl⟩
    | cons p rest =>
      refine ⟨_, uniformEach_ok _ _ ?_⟩
      exact_mod_cast Nat.cast_ne_zero.mpr (by simp)

lemma get_average_strategy_total (acts : List String)
    (cs : List (String × ℚ)) :
    ∃ out, get_average_strategy acts cs = .ok out := by
  simp only [get_average_strategy]
  split
  · case isTrue hpos => exact ⟨_, divEach_ok _ _ (ne_of_gt hpos)⟩
  · case isFalse hpos =>
    cases acts with
    | nil => exact ⟨[], rfl⟩
    | cons a rest =>
      refine ⟨_, uniformEach_ok _ _ ?_⟩
      exact_mod_cast Nat.cast_ne_zero.mpr (by simp)

/-- C5: for every regret map over a non-empty action set, regret matching
(`InfoSet.calculate_strategy`) produces exactly the distribution of the
specification - `positive(a)/S` when the positive-regret sum `S` is positive,
uniform `1/|actions|` otherwise - and in all cases, including all-non-positive
regret, the values are non-negative and sum to 1. -/
theorem C5_regret_matching_matches_spec (rs : List (String × ℚ))
    (hne : rs ≠ []) :
    calculate_strategy rs = .ok (rm_strategy_spec rs) ∧
    (∀ p ∈ rm_strategy_spec rs, 0 ≤ p.2) ∧
    ((rm_strategy_spec rs).map Prod.snd).sum = 1 := by
  have hlen0 : rs.length ≠ 0 := fun h => hne (List.length_eq_zero.mp h)
  have hlen : (rs.length : ℚ) ≠ 0 := Nat.cast_ne_zero.mpr hlen0
  have hsnd : (rs.map (fun p => (p.1, max p.2 0))).map Prod.snd =
      rs.map (fun p => max p.2 0) := by
    simp [List.map_map, Function.comp]
  by_cases hpos : 0 < (rs.map (fun p => max p.2 0)).sum
  · have hcalc : calculate_strategy rs =
        .ok (rs.map (fun p => (p.1, max p.2 0 / (rs.map (fun q => max q.2 0)).sum))) := by
      simp only [calculate_strategy, hsnd]
      rw [if_pos hpos, divEach_ok _ _ (ne_of_gt hpos), List.map_map]
      rfl
    have hspec : rm_strategy_spec rs =
        rs.map (fun p => (p.1, max p.2 0 / (rs.map (fun q => max q.2 0)).sum)) := by
      simp only [rm_strategy_spec]
      rw [if_pos hpos]
    refine ⟨by rw [hcalc, hspec], ?_, ?_⟩
    · intro p hp
      rw [hspec] at hp
      rcases List.mem_map.mp hp with ⟨q, _, rfl⟩
      exact div_nonneg (le_max_right _ _) hpos.le
    · rw [hspec, List.map_map]
      have : (Prod.snd ∘ fun p : String × ℚ =>
          (p.1, max p.2 0 / (rs.map (fun q => max q.2 0)).sum)) =
          fun p : String × ℚ => max p.2 0 / (rs.map (fun q => max q.2 0)).sum := rfl
      rw [this]
      have hmm : rs.map (fun p : String × ℚ =>
          max p.2 0 / (rs.map (fun q => max q.2 0)).sum) =
          (rs.map (fun p : String × ℚ => max p.2 0)).map
            (fun x => x / (rs.map (fun q => max q.2 0)).sum) := by
        rw [List.map_map]
        rfl
      rw [hmm, list_sum_div]
      exact div_self (ne_of_gt hpos)
  · have hcalc : calculate_strategy rs =
        .ok (rs.map (fun p => (p.1, (1 : ℚ) / rs.length))) := by
      simp only [calculate_strategy, hsnd]
      rw [if_neg hpos, uniformEach_ok _ _ hlen, List.map_map]
      rfl
    have hspec : rm_strategy_spec rs =
        rs.map (fun p => (p.1, (1 : ℚ) / rs.length)) := by
      simp only [rm_strategy_spec]
      rw [if_neg hpos]
    refine ⟨by rw [hcalc, hspec], ?_, ?_⟩
    · intro p hp
      rw [hspec] at hp
      rcases List.mem_map.mp hp with ⟨q, _, rfl⟩
      positivity
    · rw [hspec, List.map_map]
      have : (Prod.snd ∘ fun p : String × ℚ => (p.1, (1 : ℚ) / rs.length)) =
          fun _ : String × ℚ => (1 : ℚ) / rs.length := rfl
      rw [this, list_sum_const]
      exact mul_one_div_cancel hlen

/-- Witness for C5 at the concrete all-non-positive regret map
`{a: -1}`. -/
theorem C5_witness :
    ([(("a" : String), (-1 : ℚ))] ≠ []) ∧
    (calculate_strategy [("a", -1)] = .ok (rm_strategy_spec [("a", -1)]) ∧
     (∀ p ∈ rm_strategy_spec [(("a" : String), (-1 : ℚ))], 0 ≤ p.2) ∧
     ((rm_strategy_spec [(("a" : String), (-1 : ℚ))]).map Prod.snd).sum = 1) :=
  ⟨by simp, C5_regret_matching_matches_spec [("a", -1)] (by simp)⟩

/-- C6: for every InfoSet with a non-empty action set and non-negative
cumulative strategy, `InfoSet.get_average_strategy` returns exactly the
distribution of the specification - `cumulativeStrategy[a]/sum` when the sum
is positive, uniform otherwise - and in all cases, including the all-zero
cumulative strategy, the values are non-negative and sum to 1. -/
theorem C6_average_strategy_matches_spec (actions : List String)
    (cs : List (String × ℚ)) (hne : actions ≠ [])
    (hnn : ∀ p ∈ cs, 0 ≤ p.2) :
    get_average_strategy actions cs = .ok (avg_strategy_spec actions cs) ∧
    (∀ p ∈ avg_strategy_spec actions cs, 0 ≤ p.2) ∧
    ((avg_strategy_spec actions cs).map Prod.snd).sum = 1 := by
  have hlen0 : actions.length ≠ 0 := fun h => hne (List.length_eq_zero.mp h)
  have hlen : ((actions.length : ℚ)) ≠ 0 := Nat.cast_ne_zero.mpr hlen0
  have hsnd : (actions.map (fun a => (a, dictGet cs a 0))).map Prod.snd =
      actions.map (fun a => dictGet cs a 0) := by
    simp [List.map_map, Function.comp]
  by_cases hpos : 0 < (actions.map (fun a => dictGet cs a 0)).sum
  · have hcalc : get_average_strategy actions cs =
        .ok (actions.map (fun a =>
          (a, dictGet cs a 0 / (actions.map (fun b => dictGet cs b 0)).sum))) := by
      simp only [get_average_strategy, hsnd]
      rw [if_pos hpos, divEach_ok _ _ (ne_of_gt hpos), List.map_map]
      rfl
    have hspec : avg_strategy_spec actions cs =
        actions.map (fun a =>
          (a, dictGet cs a 0 / (actions.map (fun b => dictGet cs b 0)).sum)) := by
      simp only [avg_strategy_spec]
      rw [if_pos hpos]
    refine ⟨by rw [hcalc, hspec], ?_, ?_⟩
    · intro p hp
      rw [hspec] at hp
      rcases List.mem_map.mp hp with ⟨a, _, rfl⟩
      exact div_nonneg (dictGet_nonneg cs a hnn) hpos.le
    · rw [hspec, List.map_map]
      have : (Prod.snd ∘ fun a : String =>
          (a, dictGet cs a 0 / (actions.map (fun b => dictGet cs b 0)).sum)) =
          fun a : String => dictGet cs a 0 / (actions.map (fun b => dictGet cs b 0)).sum := rfl
      rw [this]
      have hmm : actions.map (fun a : String =>
          dictGet cs a 0 / (actions.map (fun b => dictGet cs b 0)).sum) =
          (actions.map (fun a : String => dictGet cs a 0)).map
            (fun x => x / (actions.map (fun b => dictGet cs b 0)).sum) := by
        rw [List.map_map]
        rfl
      rw [hmm, list_sum_div]
      exact div_self (ne_of_gt hpos)
  · have hcum_len : ((actions.map (fun a => (a, dictGet cs a 0))).length : ℚ) =
        (actions.length : ℚ) := by
      rw [List.length_map]
    have hcalc : get_average_strategy actions cs =
        .ok (actions.map (fun a => (a, (1 : ℚ) / actions.length))) := by
      simp only [get_average_strategy, hsnd]
      rw [if_neg hpos, hcum_len, uniformEach_ok _ _ hlen, List.map_map]
      rfl
    have hspec : avg_strategy_spec actions cs =
        actions.map (fun a => (a, (1 : ℚ) / actions.length)) := by
      simp only [avg_strategy_spec]
      rw [if_neg hpos]
    refine ⟨by rw [hcalc, hspec], ?_, ?_⟩
    · intro p hp
      rw [hspec] at hp
      rcases List.mem_map.mp hp with ⟨a, _, rfl⟩
      positivity
    · rw [hspec, List.map_map]
      have : (Prod.snd ∘ fun a : String => (a, (1 : ℚ) / actions.length)) =
          fun _ : String => (1 : ℚ) / actions.length := rfl
      rw [this, list_sum_const]
      exact mul_one_div_cancel hlen

/-- Witness for C6 at a concrete all-zero cumulative strategy over one
action. -/
theorem C6_witness :
    ((["x"] : List String) ≠ []) ∧
    (∀ p ∈ ([(("x" : String), (0 : ℚ))] : List (String × ℚ)), 0 ≤ p.2) ∧
    (get_average_strategy ["x"] [("x", 0)] =
       .ok (avg_strategy_spec ["x"] [("x", 0)]) ∧
     (∀ p ∈ avg_strategy_spec ["x"] [(("x" : String), (0 : ℚ))], 0 ≤ p.2) ∧
     ((avg_strategy_spec ["x"] [(("x" : String), (0 : ℚ))]).map Prod.snd).sum = 1) :=
  ⟨by simp, by simp,
   C6_average_strategy_matches_spec ["x"] [("x", 0)] (by simp) (by simp)⟩

lemma InfoSet_init_total (key : String) (actions : List String) :
    ∃ I, InfoSet_init key actions = .ok I := by
  obtain ⟨out, hout⟩ := calculate_strategy_total (actions.map (fun a => (a, (0 : ℚ))))
  refine ⟨⟨key, out, actions.map (fun a => (a, 0)),
    actions.map (fun a => (a, 0))⟩, ?_⟩
  simp [InfoSet_init, hout]

/-- C1: at the failing input - the one-decision game `gameA`, updating
player 2, all reach probabilities 1, a fresh store - the source `walk_tree`
scales reach and node value by `I.cumulative_strategy[a]` (all zero for a
fresh info set) and returns node value 0, whereas the walk described by the
specification (scaling by the current strategy `I.strategy[a]`, node value
`sum of I.strategy[a]*v[a]`) returns `1/2*2 + 1/2*0 = 1`. -/
theorem C1_value_uses_cumulative_strategy :
    pyVal (walk_tree gameA 10 [] [] 2 1 1) = some 0 ∧
    pyVal (walk_tree_spec gameA 10 [] [] 2 1 1) = some 1 := by
  constructor
  · simp [walk_tree, gameA, get_info_set_key, InfoSet_init, calculate_strategy,
      uniformEach, divEach, pydiv, alookup, storeGetE, dictGetE, dictGet,
      dictSet, storeSet, pyVal, walk_update_loop]
  · simp [walk_tree_spec, gameA, get_info_set_key, InfoSet_init,
      calculate_strategy, uniformEach, divEach, pydiv, alookup, storeGetE,
      dictGetE, dictGet, dictSet, storeSet, pyVal]

/-- C2: at a history whose next step is a chance event (`gameB`, whose root
is a chance node with sampled action `c` leading to utility 7), the source
`walk_tree` passes the bound method `h.sample_chance` itself - without
calling it and without extending the history - so the nested call raises
`AttributeError` and no recursion into the sampled history ever happens; the
walk described by the specification returns the utility 7 of the sampled
continuation. -/
theorem C2_chance_branch_never_advances :
    walk_tree gameB 10 [] [] 1 1 1 = .err "AttributeError" [] ∧
    walk_tree_spec gameB 10 [] [] 1 1 1 = .ok 7 [] := by
  constructor
  · simp [walk_tree, gameB]
  · simp [walk_tree_spec, gameB]

/-- C3: at an own-player node (`gameA`, updating player 1 = acting player),
the source update block adds `pi_neg_i*(v_a[a]-v)` to `I.regret` only for the
FIRST action (`L` gets `1*(2-0)=2`, `R` stays 0) and then raises `TypeError`
at `I.cumulative_strategy(a)`, so `calculate_strategy` is never reached: the
stored strategy is still the uniform `[1/2, 1/2]` even though regret matching
on the updated regret would give `[1, 0]`. -/
theorem C3_regret_update_aborts_after_first_action :
    walk_tree gameA 10 [] [] 1 1 1 =
      .err "TypeError" [("P1", ⟨"P1", [("L", 1/2), ("R", 1/2)],
        [("L", 2), ("R", 0)], [("L", 0), ("R", 0)]⟩)] ∧
    calculate_strategy [("L", 2), ("R", 0)] = .ok [("L", 1), ("R", 0)] := by
  constructor
  · simp [walk_tree, gameA, get_info_set_key, InfoSet_init, calculate_strategy,
      uniformEach, divEach, pydiv, alookup, storeGetE, dictGetE, dictGet,
      dictSet, storeSet, walk_update_loop]
  · norm_num [calculate_strategy, divEach, pydiv]

/-- C4: at the same own-player node the source never adds
`reachProb[updatingPlayer] * I.strategy[a]` to `I.cumulativeStrategy[a]` -
the buggy line targets `I.strategy` and raises `TypeError` before assigning
anything - so the cumulative strategy is still all-zero after the waltk,
whereas the walk described by the specification accumulates
`1 * 1/2` for each action. -/
theorem C4_cumulative_strategy_never_accumulated :
    pyExn (walk_tree gameA 10 [] [] 1 1 1) = some "TypeError" ∧
    pyStore (walk_tree gameA 10 [] [] 1 1 1) =
      [("P1", ⟨"P1", [("L", 1/2), ("R", 1/2)],
        [("L", 2), ("R", 0)], [("L", 0), ("R", 0)]⟩)] ∧
    pyStore (walk_tree_spec gameA 10 [] [] 1 1 1) =
      [("P1", ⟨"P1", [("L", 1), ("R", 0)],
        [("L", 1), ("R", -1)], [("L", 1/2), ("R", 1/2)]⟩)] := by
  refine ⟨?_, ?_, ?_⟩
  · simp [walk_tree, gameA, get_info_set_key, InfoSet_init, calculate_strategy,
      uniformEach, divEach, pydiv, alookup, storeGetE, dictGetE, dictGet,
      dictSet, storeSet, walk_update_loop, pyExn]
  · simp [walk_tree, gameA, get_info_set_key, InfoSet_init, calculate_strategy,
      uniformEach, divEach, pydiv, alookup, storeGetE, dictGetE, dictGet,
      dictSet, storeSet, walk_update_loop, pyStore]
  · simp [walk_tree_spec, gameA, get_info_set_key, InfoSet_init,
      calculate_strategy, uniformEach, divEach, pydiv, alookup, storeGetE,
      dictGetE, dictGet, dictSet, storeSet, pyStore]
    norm_num

/-- C7: the info-set store lookup returns the existing InfoSet when the key
is present (leaving the store untouched), otherwise creates one through the
constructor, inserts it and returns it; a second lookup with the same key
returns the very same InfoSet and changes nothing, and the store keeps
exactly one entry per distinct key. -/
theorem C7_get_or_create_identity (store : Store) (key : String)
    (actions : List String) (hnodup : (store.map Prod.fst).Nodup) :
    ∃ I s1, get_info_set_key store key actions = .ok (I, s1) ∧
      (∀ J, alookup store key = some J → I = J ∧ s1 = store) ∧
      (alookup store key = none →
        InfoSet_init key actions = .ok I ∧ s1 = store ++ [(key, I)]) ∧
      get_info_set_key s1 key actions = .ok (I, s1) ∧
      alookup s1 key = some I ∧
      (s1.map Prod.fst).Nodup := by
  cases hl : alookup store key with
  | some J =>
    refine ⟨J, store, ?_, ?_, ?_, ?_, ?_, hnodup⟩
    · simp [get_info_set_key, hl]
    · intro J' hJ'
      exact ⟨Option.some.inj hJ', rfl⟩
    · intro h
      simp [hl] at h
    · simp [get_info_set_key, hl]
    · simp [hl]
  | none =>
    obtain ⟨I, hI⟩ := InfoSet_init_total key actions
    have happ : alookup (store ++ [(key, I)]) key = some I :=
      alookup_append_single store key I hl
    refine ⟨I, store ++ [(key, I)], ?_, ?_, ?_, ?_, happ, ?_⟩
    · simp [get_info_set_key, hl, hI]
    · intro J hJ
      simp [hl] at hJ
    · intro _
      exact ⟨hI, rfl⟩
    · simp [get_info_set_key, happ]
    · have hk : key ∉ store.map Prod.fst := (alookup_eq_none_iff store key).mp hl
      simp [List.nodup_append, hnodup, hk]

/-- Witness for C7 on the empty store. -/
theorem C7_witness :
    ((([] : Store)).map Prod.fst).Nodup ∧
    (∃ I s1, get_info_set_key [] "k" ["a"] = .ok (I, s1) ∧
      (∀ J, alookup ([] : Store) "k" = some J → I = J ∧ s1 = []) ∧
      (alookup ([] : Store) "k" = none →
        InfoSet_init "k" ["a"] = .ok I ∧ s1 = [] ++ [("k", I)]) ∧
      get_info_set_key s1 "k" ["a"] = .ok (I, s1) ∧
      alookup s1 "k" = some I ∧
      (s1.map Prod.fst).Nodup) :=
  ⟨by simp, C7_get_or_create_identity [] "k" ["a"] (by simp)⟩

/-- C8: saving an InfoSet with `to_dict` and loading the result with
`load_dict` reconstructs `regret` and `cumulative_strategy` verbatim and
recomputes the strategy by regret matching, so for an InfoSet whose stored
strategy is consistent with its regret the reloaded strategy equals the
strategy before saving. -/
theorem C8_save_load_roundtrip (I J : InfoSetM)
    (hcons : calculate_strategy I.regret = .ok I.strategy) :
    (load_dict J (to_dict I)).1 = .ok () ∧
    (load_dict J (to_dict I)).2.regret = I.regret ∧
    (load_dict J (to_dict I)).2.cumulative_strategy = I.cumulative_strategy ∧
    (load_dict J (to_dict I)).2.strategy = I.strategy := by
  simp [load_dict, to_dict, hcons]

/-- Witness for C8 at a concrete consistent InfoSet. -/
theorem C8_witness :
    calculate_strategy (InfoSetM.mk "k" [("a", 1)] [("a", 5)] [("a", 3)]).regret =
      .ok (InfoSetM.mk "k" [("a", 1)] [("a", 5)] [("a", 3)]).strategy ∧
    ((load_dict (InfoSetM.mk "j" [] [] [])
        (to_dict (InfoSetM.mk "k" [("a", 1)] [("a", 5)] [("a", 3)]))).1 = .ok () ∧
     (load_dict (InfoSetM.mk "j" [] [] [])
        (to_dict (InfoSetM.mk "k" [("a", 1)] [("a", 5)] [("a", 3)]))).2.regret =
       (InfoSetM.mk "k" [("a", 1)] [("a", 5)] [("a", 3)]).regret ∧
     (load_dict (InfoSetM.mk "j" [] [] [])
        (to_dict (InfoSetM.mk "k" [("a", 1)] [("a", 5)] [("a", 3)]))).2.cumulative_strategy =
       (InfoSetM.mk "k" [("a", 1)] [("a", 5)] [("a", 3)]).cumulative_strategy ∧
     (load_dict (InfoSetM.mk "j" [] [] [])
        (to_dict (InfoSetM.mk "k" [("a", 1)] [("a", 5)] [("a", 3)]))).2.strategy =
       (InfoSetM.mk "k" [("a", 1)] [("a", 5)] [("a", 3)]).strategy) :=
  ⟨by norm_num [calculate_strategy, divEach, pydiv],
   C8_save_load_roundtrip _ _ (by norm_num [calculate_strategy, divEach, pydiv])⟩

/-- C9: loading from a saved dictionary missing the `regret` key or the
`average_strategy` key raises `KeyError` at load time; no accumulator is
silently defaulted - each ends up either untouched or holding exactly the
value the dictionary supplied, and the strategy is untouched. -/
theorem C9_load_missing_key_raises (J : InfoSetM) (d : SavedDict)
    (hmiss : d.regret = none ∨ d.average_strategy = none) :
    (∃ e, (load_dict J d).1 = .error e) ∧
    ((load_dict J d).2.regret = J.regret ∨
      d.regret = some ((load_dict J d).2.regret)) ∧
    (load_dict J d).2.cumulative_strategy = J.cumulative_strategy ∧
    (load_dict J d).2.strategy = J.strategy := by
  cases hr : d.regret with
  | none => simp [load_dict, hr]
  | some r =>
    cases ha : d.average_strategy with
    | none => simp [load_dict, hr, ha]
    | some cs =>
      rcases hmiss with h | h
      · rw [hr] at h
        cases h
      · rw [ha] at h
        cases h

/-- Witness for C9 at a dictionary with `regret` present but
`average_strategy` missing. -/
theorem C9_witness :
    ((SavedDict.mk "k" (some [("a", 4)]) none).regret = none ∨
      (SavedDict.mk "k" (some [("a", 4)]) none).average_strategy = none) ∧
    ((∃ e, (load_dict (InfoSetM.mk "j" [("a", 1)] [("a", 0)] [("a", 0)])
        (SavedDict.mk "k" (some [("a", 4)]) none)).1 = .error e) ∧
     ((load_dict (InfoSetM.mk "j" [("a", 1)] [("a", 0)] [("a", 0)])
        (SavedDict.mk "k" (some [("a", 4)]) none)).2.regret =
          (InfoSetM.mk "j" [("a", 1)] [("a", 0)] [("a", 0)]).regret ∨
      (SavedDict.mk "k" (some [("a", 4)]) none).regret =
        some ((load_dict (InfoSetM.mk "j" [("a", 1)] [("a", 0)] [("a", 0)])
          (SavedDict.mk "k" (some [("a", 4)]) none)).2.regret)) ∧
     (load_dict (InfoSetM.mk "j" [("a", 1)] [("a", 0)] [("a", 0)])
        (SavedDict.mk "k" (some [("a", 4)]) none)).2.cumulative_strategy =
       (InfoSetM.mk "j" [("a", 1)] [("a", 0)] [("a", 0)]).cumulative_strategy ∧
     (load_dict (InfoSetM.mk "j" [("a", 1)] [("a", 0)] [("a", 0)])
        (SavedDict.mk "k" (some [("a", 4)]) none)).2.strategy =
       (InfoSetM.mk "j" [("a", 1)] [("a", 0)] [("a", 0)]).strategy) :=
  ⟨Or.inr rfl,
   C9_load_missing_key_raises (InfoSetM.mk "j" [("a", 1)] [("a", 0)] [("a", 0)])
     (SavedDict.mk "k" (some [("a", 4)]) none) (Or.inr rfl)⟩

/-- C10 counterexample: with an empty action set neither
`calculate_strategy` nor `get_average_strategy` raises a division-by-zero
error - both return the empty dict, because the fallback comprehension over
the empty action set performs no division at all. -/
theorem C10_counterexample_empty_actions :
    calculate_strategy ([] : List (String × ℚ)) = .ok [] ∧
    get_average_strategy ([] : List String) ([] : List (String × ℚ)) = .ok [] := by
  constructor
  · norm_num [calculate_strategy, uniformEach]
  · norm_num [get_average_strategy, uniformEach]

/-- C10 amended: with an empty action set both functions take the uniform
fallback with action count 0 but perform no division (the comprehension over
the empty dict is empty) and return the empty map without raising; in fact
neither function can raise for any input, and the fallback yields a
distribution only under the non-emptiness precondition. -/
theorem C10_amended_empty_actions_no_error :
    calculate_strategy ([] : List (String × ℚ)) = .ok [] ∧
    (∀ cs : List (String × ℚ), get_average_strategy [] cs = .ok []) ∧
    (∀ rs : List (String × ℚ), ∃ out, calculate_strategy rs = .ok out) ∧
    (∀ acts : List String, ∀ cs : List (String × ℚ),
      ∃ out, get_average_strategy acts cs = .ok out) := by
  refine ⟨?_, ?_, calculate_strategy_total, get_average_strategy_total⟩
  · norm_num [calculate_strategy, uniformEach]
  · intro cs
    norm_num [get_average_strategy, uniformEach]

end CFRSpec
